import Mathlib

/-!
Verification of the message-handling core of a multi-platform chat-bot
backend: the key-rotation completion engine (`chatWithGemini` in
`server/gemini.ts`), the conversation-memory window, the platform adapters
(`server/platforms/{telegram,whatsapp,messenger}.ts`), media processing
(`server/media.ts`) and the human-behavior delay helpers
(`server/platforms/types.ts`).

External collaborators (the SQLite store, the Gemini SDK, `fetch`,
`crypto.createHmac`, `ffmpeg`, `Math.random`) are modelled as explicit
state or as oracle parameters; everything the repository itself computes is
translated directly from the source.
-/

namespace GeminiBot

/-- `xs.slice(-n)` on a JavaScript array: the last `n` elements. -/
def takeLast (n : Nat) (l : List α) : List α :=
  l.drop (l.length - n)

/-! ## Data model (tables `gemini_keys`, `memories`, `bot_logs`,
`personalities` from `server/db.ts`) -/

/-- A row of `gemini_keys`.  `last_used_at` is an ISO timestamp or SQL
NULL; ISO strings of the fixed format compare chronologically, so it is
modelled as `Option Nat` (`none` = never used). -/
structure Credential where
  id : String
  key : String
  status : String
  lastUsedAt : Option Nat
  userId : String
  deriving DecidableEq, Repr

/-- One entry of the JSON `context` column of `memories`. -/
structure Turn where
  role : String
  content : String
  deriving DecidableEq, Repr

/-- A row of `memories` (one conversation's bounded history). -/
structure MemoryRecord where
  id : String
  chatId : String
  context : List Turn
  userId : String
  deriving DecidableEq, Repr

/-- A row of `bot_logs` (the audit log). -/
structure LogEntry where
  id : String
  requestPrompt : String
  requestChatId : String
  responsePayload : String
  rawResponse : String
  apiKeyUsed : String
  userId : String
  deriving DecidableEq, Repr

/-- A row of `personalities`. -/
structure Personality where
  id : String
  name : String
  systemPrompt : String
  isActive : Bool
  userId : String
  deriving DecidableEq, Repr

/-- The slice of the SQLite database that the completion engine touches. -/
structure Db where
  geminiKeys : List Credential
  personalities : List Personality
  memories : List MemoryRecord
  botLogs : List LogEntry
  deriving DecidableEq, Repr

/-! ## Key pool: `SELECT * FROM gemini_keys WHERE user_id = ? AND
status = 'active' ORDER BY last_used_at ASC` (gemini.ts line 29).
SQLite sorts NULL before every non-NULL value in ascending order. -/

/-- SQLite ascending comparison on a nullable timestamp column (NULLs
first). -/
def optNatLe : Option Nat → Option Nat → Bool
  | none, _ => true
  | some _, none => false
  | some a, some b => a ≤ b

/-- Carrier relation of the `ORDER BY last_used_at ASC` sort. -/
def credRel (a b : Credential) : Prop := optNatLe a.lastUsedAt b.lastUsedAt = true

instance : DecidableRel credRel := fun a b => decEq (optNatLe a.lastUsedAt b.lastUsedAt) true

instance : IsTotal Credential credRel where
  total a b := by
    simp only [credRel, optNatLe]
    rcases a.lastUsedAt with _ | x <;> rcases b.lastUsedAt with _ | y <;> simp <;> omega

instance : IsTrans Credential credRel where
  trans a b c := by
    simp only [credRel, optNatLe]
    rcases a.lastUsedAt with _ | x <;> rcases b.lastUsedAt with _ | y <;>
      rcases c.lastUsedAt with _ | z <;> simp <;> omega

/-- The candidate-selection query of the completion engine: all of the
owner's credentials with status `active`, ordered ascending by
`last_used_at` with NULL (never used) first (gemini.ts line 29). -/
def selectOrderedCandidates (userId : String) (keys : List Credential) : List Credential :=
  List.insertionSort credRel (keys.filter fun k => k.userId == userId && k.status == "active")

/-! ## The rotation/retry loop (gemini.ts lines 49-117).

Everything inside the `try` block up to capturing `responseText` — SDK
construction, prompt/media parts, the bounded tool round-trip — is one
provider interaction and is abstracted as an oracle `call` returning
either the final `(text, rawResponse)` pair or the thrown error message.
The loop tries candidates in order, keeps the latest error message, and
stops at the first call that does not throw. -/

structure TryOutcome where
  attempted : List Credential
  lastError : Option String
  success : Option (Credential × String × String)
  deriving Repr

def tryCandidates (call : Credential → Except String (String × String)) :
    List Credential → TryOutcome
  | [] => ⟨[], none, none⟩
  | k :: rest =>
    match call k with
    | .ok (text, raw) => ⟨[k], none, some (k, text, raw)⟩
    | .error e =>
      let o := tryCandidates call rest
      ⟨k :: o.attempted, some (o.lastError.getD e), o.success⟩

/-- JavaScript string concatenation `"... " + lastError` where `lastError`
may still be `null`. -/
def lastErrorText : Option String → String
  | some e => e
  | none => "null"

/-- `mem_${Date.now()}` (gemini.ts line 130). -/
def memId (now : Nat) : String := "mem_" ++ toString now

/-- `log_${Date.now()}` (gemini.ts line 135). -/
def logId (now : Nat) : String := "log_" ++ toString now

/-- `SELECT * FROM personalities WHERE user_id = ? AND is_active = 1`
with the built-in fallback prompt (gemini.ts lines 36-37). -/
def activeSystemPrompt (db : Db) (userId : String) : String :=
  match db.personalities.find? fun p => p.userId == userId && p.isActive with
  | some p => p.systemPrompt
  | none => "You are a helpful assistant."

/-- `SELECT * FROM memories WHERE user_id = ? AND chat_id = ?`
(gemini.ts line 40). -/
def findMemory (db : Db) (userId chatId : String) : Option MemoryRecord :=
  db.memories.find? fun m => m.userId == userId && m.chatId == chatId

/-- The stored conversation history for a chat key: the `context` column
of the `memories` row matching `user_id` and `chat_id`, or `[]`
(gemini.ts lines 40-41). -/
def storedHistory (db : Db) (userId chatId : String) : List Turn :=
  match findMemory db userId chatId with
  | some m => m.context
  | none => []

/-- The prior context sent to the provider on one call:
`history.slice(-20)` (gemini.ts line 69). -/
def sentContext (db : Db) (userId chatId : String) : List Turn :=
  takeLast 20 (storedHistory db userId chatId)

structure GeminiResult where
  response : String
  keyId : String
  deriving DecidableEq, Repr

/-- One loop iteration's provider interaction for a given credential:
the oracle applied to the credential, the active system prompt and the
last-20-turns context (gemini.ts lines 51-100). -/
def engineCall
    (provider : Credential → String → List Turn → Except String (String × String))
    (db : Db) (userId chatId : String) (k : Credential) :
    Except String (String × String) :=
  provider k (activeSystemPrompt db userId) (sentContext db userId chatId)

/-- `chatWithGemini` (gemini.ts lines 22-138), one completion turn.

* `provider key systemPrompt priorContext` is the oracle for the whole
  provider interaction of one loop iteration (the prompt and media parts
  are fixed for the call and absorbed into the oracle).
* `now` stands for `Date.now()` / `new Date().toISOString()`.
* The returned `Db` is the persisted state after the call — returned even
  when the call throws, because the SQL statements already executed. -/
def chatWithGemini
    (provider : Credential → String → List Turn → Except String (String × String))
    (now : Nat) (db : Db) (userId chatId prompt : String) :
    Db × Except String GeminiResult :=
  let keys := selectOrderedCandidates userId db.geminiKeys
  if keys.isEmpty then
    (db, .error "No active Gemini API keys found")
  else
    let memoryRecord := findMemory db userId chatId
    let history := match memoryRecord with
      | some m => m.context
      | none => []
    let o := tryCandidates (engineCall provider db userId chatId) keys
    match o.success with
    | none =>
      (db, .error ("All API keys failed. Last error: " ++ lastErrorText o.lastError))
    | some (k, text, raw) =>
      let db1 : Db := { db with geminiKeys := db.geminiKeys.map fun c =>
        if c.id == k.id then { c with lastUsedAt := some now } else c }
      if text == "" then
        (db1, .error ("All API keys failed. Last error: " ++ lastErrorText o.lastError))
      else
        let newHistory := takeLast 50 (history ++ [⟨"user", prompt⟩, ⟨"model", text⟩])
        let db2 : Db := match memoryRecord with
          | some m => { db1 with memories := db1.memories.map fun r =>
              if r.id == m.id then { r with context := newHistory } else r }
          | none => { db1 with memories :=
              db1.memories ++ [⟨memId now, chatId, newHistory, userId⟩] }
        let db3 : Db := { db2 with botLogs :=
          db2.botLogs ++ [⟨logId now, prompt, chatId, text, raw, k.id, userId⟩] }
        (db3, .ok ⟨text, k.id⟩)

/-- `K` consecutive completion calls for one chat key, the `j`-th call
using prompt `prompts j` and wall clock `j`. -/
def runChatK
    (provider : Credential → String → List Turn → Except String (String × String))
    (userId chatId : String) (prompts : Nat → String) : Nat → Db → Db
  | 0, db => db
  | j + 1, db =>
    let dbj := runChatK provider userId chatId prompts j db
    (chatWithGemini provider j dbj userId chatId (prompts j)).1

/-! ## A small JavaScript value model for the webhook payloads.

The adapters receive an arbitrary parsed JSON body (plus `undefined`
holes), read properties, index arrays, test truthiness and coerce with
`String(...)`.  Property access on `null`/`undefined` throws a
`TypeError`; fallible steps therefore live in `Except Unit`. -/

inductive JsValue where
  | undef : JsValue
  | null : JsValue
  | bool : Bool → JsValue
  | num : Int → JsValue
  | str : String → JsValue
  | arr : List JsValue → JsValue
  | obj : List (String × JsValue) → JsValue
  deriving Repr, Inhabited

namespace JsValue

/-- Field lookup inside an object literal (missing key = `undefined`). -/
def lookup (fields : List (String × JsValue)) (k : String) : JsValue :=
  match fields.find? fun f => f.1 == k with
  | some f => f.2
  | none => undef

/-- JavaScript property access `v.k`: throws on `null`/`undefined`,
returns `undefined` for properties of other non-objects (except an
array's `length`). -/
def get : JsValue → String → Except Unit JsValue
  | undef, _ => .error ()
  | null, _ => .error ()
  | obj fields, k => .ok (lookup fields k)
  | arr xs, k => .ok (if k == "length" then num xs.length else undef)
  | _, _ => .ok undef

/-- Optional chaining `v?.k`. -/
def optGet (v : JsValue) (k : String) : Except Unit JsValue :=
  match v with
  | undef => .ok undef
  | null => .ok undef
  | _ => get v k

/-- Array indexing `v[i]` with an index that may be NaN (`none`). -/
def index : JsValue → Option Int → Except Unit JsValue
  | undef, _ => .error ()
  | null, _ => .error ()
  | arr xs, some i =>
    .ok (if h : 0 ≤ i ∧ i.toNat < xs.length then xs.get ⟨i.toNat, h.2⟩ else undef)
  | _, _ => .ok undef

/-- Optional-chained indexing `v?.[i]`. -/
def optIndex (v : JsValue) (i : Option Int) : Except Unit JsValue :=
  match v with
  | undef => .ok undef
  | null => .ok undef
  | _ => index v i

/-- JavaScript truthiness (NaN is not modelled; numbers are integral). -/
def truthy : JsValue → Bool
  | undef => false
  | null => false
  | bool b => b
  | num n => n != 0
  | str s => s != ""
  | arr _ => true
  | obj _ => true

/-- `a || b`. -/
def orElse (a b : JsValue) : JsValue := if truthy a then a else b

/-- `v === s` for a string literal `s`. -/
def strEq (v : JsValue) (s : String) : Bool :=
  match v with
  | str t => t == s
  | _ => false

/-- Numeric view used by `Date(... * 1000)` and index arithmetic
(`none` = NaN). -/
def toNum : JsValue → Option Int
  | num n => some n
  | bool true => some 1
  | bool false => some 0
  | null => some 0
  | _ => none

mutual

/-- `String(v)` coercion. -/
def toStr : JsValue → String
  | undef => "undefined"
  | null => "null"
  | bool true => "true"
  | bool false => "false"
  | num n => toString n
  | str s => s
  | arr xs => String.intercalate "," (toStrList xs)
  | obj _ => "[object Object]"

def toStrList : List JsValue → List String
  | [] => []
  | x :: xs => toStr x :: toStrList xs

end

/-- `parseInt(v)` for the shapes that occur in webhook payloads: an
integral number stays itself, a string is parsed from its longest
leading (optionally signed) digit run, everything else is NaN. -/
def parseIntJs : JsValue → Option Int
  | num n => some n
  | str s =>
    let (sign, digits) :=
      match s.toList with
      | '-' :: rest => ((-1 : Int), rest.takeWhile Char.isDigit)
      | l => (1, l.takeWhile Char.isDigit)
    if digits.isEmpty then none
    else some (sign * (digits.foldl (fun acc c => acc * 10 + (c.toNat - 48)) 0 : Nat))
  | _ => none

end JsValue

/-! ## Canonical incoming message (`IncomingMessage` in
`server/platforms/types.ts`).  Fields that the adapters assign raw
payload values keep type `JsValue`; fields built with `String(...)` or
`new Date(...)` are coerced. -/

structure CanonMsg where
  platform : String
  integrationId : String
  chatId : JsValue
  messageId : JsValue
  senderId : JsValue
  senderName : JsValue
  content : JsValue
  mediaType : Option String
  mediaUrl : JsValue
  timestamp : Option Int
  rawPayload : JsValue
  deriving Repr

/-! ## Telegram adapter, `parseWebhook`
(`server/platforms/telegram.ts` lines 51-89).  Note: unlike the WhatsApp
and Messenger adapters, this body has **no** try/catch. -/

def telegramParseWebhook (payload : JsValue) : Except Unit (Option CanonMsg) := do
  let msgField ← payload.get "message"
  let editedField ← payload.get "edited_message"
  let message := msgField.orElse editedField
  if !message.truthy then
    return none
  let chat ← message.get "chat"
  let chatId ← chat.get "id"
  let messageId ← message.get "message_id"
  let fromField ← message.get "from"
  let fromId ← fromField.get "id"
  let firstName ← fromField.get "first_name"
  let username ← fromField.get "username"
  let text ← message.get "text"
  let caption ← message.get "caption"
  let dateField ← message.get "date"
  let base : CanonMsg := {
    platform := "telegram"
    integrationId := ""
    chatId := .str chatId.toStr
    messageId := .str messageId.toStr
    senderId := .str fromId.toStr
    senderName := firstName.orElse username
    content := text.orElse (caption.orElse (.str ""))
    mediaType := none
    mediaUrl := .undef
    timestamp := (dateField.toNum).map (· * 1000)
    rawPayload := payload }
  let photo ← message.get "photo"
  if photo.truthy then
    let len ← photo.get "length"
    let lastPhoto ← photo.index ((len.toNum).map (· - 1))
    let fileId ← lastPhoto.get "file_id"
    return some { base with mediaType := some "image", mediaUrl := fileId }
  let video ← message.get "video"
  if video.truthy then
    let fileId ← video.get "file_id"
    return some { base with mediaType := some "video", mediaUrl := fileId }
  let audio ← message.get "audio"
  let voice ← message.get "voice"
  if (audio.orElse voice).truthy then
    let fileId ← (audio.orElse voice).get "file_id"
    return some { base with mediaType := some "audio", mediaUrl := fileId }
  let document ← message.get "document"
  if document.truthy then
    let fileId ← document.get "file_id"
    return some { base with mediaType := some "document", mediaUrl := fileId }
  let sticker ← message.get "sticker"
  if sticker.truthy then
    let fileId ← sticker.get "file_id"
    return some { base with mediaType := some "sticker", mediaUrl := fileId }
  let animation ← message.get "animation"
  if animation.truthy then
    let fileId ← animation.get "file_id"
    return some { base with mediaType := some "gif", mediaUrl := fileId }
  return some base

/-! ## WhatsApp adapter (`server/platforms/whatsapp.ts`). -/

/-- Body of `whatsappAdapter.parseWebhook` (lines 72-124), the part
inside `try`. -/
def whatsappParseBody (payload : JsValue) : Except Unit (Option CanonMsg) := do
  let entryField ← payload.get "entry"
  let entry ← entryField.optIndex (some 0)
  let changesField ← entry.optGet "changes"
  let changes ← changesField.optIndex (some 0)
  let value ← changes.optGet "value"
  let messagesField ← value.optGet "messages"
  let message ← messagesField.optIndex (some 0)
  if !message.truthy then
    return none
  let contactsField ← value.optGet "contacts"
  let contact ← contactsField.optIndex (some 0)
  let fromField ← message.get "from"
  let msgIdField ← message.get "id"
  let profile ← contact.optGet "profile"
  let profileName ← profile.optGet "name"
  let tsField ← message.get "timestamp"
  let base : CanonMsg := {
    platform := "whatsapp"
    integrationId := ""
    chatId := fromField
    messageId := msgIdField
    senderId := fromField
    senderName := profileName.orElse fromField
    content := .str ""
    mediaType := none
    mediaUrl := .undef
    timestamp := (JsValue.parseIntJs tsField).map (· * 1000)
    rawPayload := payload }
  let ty ← message.get "type"
  if ty.strEq "text" then
    let textField ← message.get "text"
    let body ← textField.optGet "body"
    return some { base with content := body.orElse (.str "") }
  if ty.strEq "image" then
    let media ← message.get "image"
    let mid ← media.optGet "id"
    let cap ← media.optGet "caption"
    return some { base with mediaType := some "image", mediaUrl := mid,
                            content := cap.orElse (.str "") }
  if ty.strEq "video" then
    let media ← message.get "video"
    let mid ← media.optGet "id"
    let cap ← media.optGet "caption"
    return some { base with mediaType := some "video", mediaUrl := mid,
                            content := cap.orElse (.str "") }
  if ty.strEq "audio" then
    let media ← message.get "audio"
    let mid ← media.optGet "id"
    return some { base with mediaType := some "audio", mediaUrl := mid }
  if ty.strEq "document" then
    let media ← message.get "document"
    let mid ← media.optGet "id"
    let cap ← media.optGet "caption"
    return some { base with mediaType := some "document", mediaUrl := mid,
                            content := cap.orElse (.str "") }
  if ty.strEq "sticker" then
    let media ← message.get "sticker"
    let mid ← media.optGet "id"
    return some { base with mediaType := some "sticker", mediaUrl := mid }
  return some base

/-- `whatsappAdapter.parseWebhook` (lines 71-129): the body wrapped in
`try { ... } catch { return null }`. -/
def whatsappParseWebhook (payload : JsValue) : Except Unit (Option CanonMsg) :=
  match whatsappParseBody payload with
  | .ok r => .ok r
  | .error _ => .ok none

/-- `whatsappAdapter.validateWebhook` (lines 131-134):
`payload && payload.entry && Array.isArray(payload.entry)`, coerced to a
boolean.  The `signature` argument is declared but never read. -/
def whatsappValidateWebhook (payload : JsValue) (signature : Option String) : Bool :=
  payload.truthy &&
    (match payload.get "entry" with
     | .ok e => e.truthy && (match e with | .arr _ => true | _ => false)
     | .error _ => false)

/-- `verifyWhatsAppSignature` (lines 138-149).  `hmacSha256Hex secret
payload` abstracts Node's `crypto.createHmac('sha256', secret)
.update(payload).digest('hex')`. -/
def verifyWhatsAppSignature (hmacSha256Hex : String → String → String)
    (payload signature appSecret : String) : Bool :=
  ("sha256=" ++ hmacSha256Hex appSecret payload) == signature

/-! ## Messenger adapter (`server/platforms/messenger.ts`). -/

/-- Body of `messengerAdapter.parseWebhook` (lines 61-107), the part
inside `try`. -/
def messengerParseBody (payload : JsValue) : Except Unit (Option CanonMsg) := do
  let entryField ← payload.get "entry"
  let entry ← entryField.optIndex (some 0)
  let messagingField ← entry.optGet "messaging"
  let messaging ← messagingField.optIndex (some 0)
  if !messaging.truthy then
    return none
  let message ← messaging.get "message"
  if !message.truthy then
    return none
  let sender ← messaging.get "sender"
  let senderId ← sender.get "id"
  let mid ← message.get "mid"
  let text ← message.get "text"
  let tsField ← messaging.get "timestamp"
  let base : CanonMsg := {
    platform := "messenger"
    integrationId := ""
    chatId := senderId
    messageId := mid
    senderId := senderId
    senderName := .undef
    content := text.orElse (.str "")
    mediaType := none
    mediaUrl := .undef
    timestamp := tsField.toNum
    rawPayload := payload }
  let attachments ← message.get "attachments"
  let len ← attachments.optGet "length"
  let hasAtt := attachments.truthy &&
    (match len.toNum with | some n => decide (0 < n) | none => false)
  if hasAtt then
    let attachment ← attachments.index (some 0)
    let ty ← attachment.get "type"
    let payloadField ← attachment.get "payload"
    let url ← payloadField.optGet "url"
    if ty.strEq "image" then
      return some { base with mediaType := some "image", mediaUrl := url }
    if ty.strEq "video" then
      return some { base with mediaType := some "video", mediaUrl := url }
    if ty.strEq "audio" then
      return some { base with mediaType := some "audio", mediaUrl := url }
    if ty.strEq "file" then
      return some { base with mediaType := some "document", mediaUrl := url }
    if ty.strEq "sticker" then
      return some { base with mediaType := some "sticker", mediaUrl := url }
    return some base
  return some base

/-- `messengerAdapter.parseWebhook` (lines 60-112): body wrapped in
`try { ... } catch { return null }`. -/
def messengerParseWebhook (payload : JsValue) : Except Unit (Option CanonMsg) :=
  match messengerParseBody payload with
  | .ok r => .ok r
  | .error _ => .ok none

/-- `messengerAdapter.validateWebhook` (lines 114-116):
`payload && payload.object === 'page' && payload.entry`, coerced. -/
def messengerValidateWebhook (payload : JsValue) (signature : Option String) : Bool :=
  payload.truthy &&
    (match payload.get "object" with
     | .ok o => o.strEq "page"
     | .error _ => false) &&
    (match payload.get "entry" with
     | .ok e => e.truthy
     | .error _ => false)

/-- `verifyMessengerSignature` (lines 120-131): computes an HMAC-SHA-256
hex digest (the same `crypto.createHmac('sha256', ...)` call as the
WhatsApp verifier) but compares against a `sha1=`-prefixed signature. -/
def verifyMessengerSignature (hmacSha256Hex : String → String → String)
    (payload signature appSecret : String) : Bool :=
  ("sha1=" ++ hmacSha256Hex appSecret payload) == signature

/-! ## Persona CRUD (`server/index.ts`, `/api/personalities` routes).
The store rows are the `Personality` structure above; `is_active`
defaults to 0 on insert (`server/db.ts` line 54). -/

/-- `POST /api/personalities` (index.ts lines 152-157): insert with the
schema default `is_active = 0`. -/
def createPersonality (uid pid name systemPrompt : String)
    (ps : List Personality) : List Personality :=
  ps ++ [⟨pid, name, systemPrompt, false, uid⟩]

/-- `POST /api/personalities/:id/activate` (index.ts lines 159-163):
`UPDATE personalities SET is_active = 0 WHERE user_id = ?` followed by
`UPDATE personalities SET is_active = 1 WHERE id = ? AND user_id = ?`. -/
def activatePersonality (uid pid : String) (ps : List Personality) : List Personality :=
  let ps1 := ps.map fun p => if p.userId == uid then { p with isActive := false } else p
  ps1.map fun p => if p.id == pid && p.userId == uid then { p with isActive := true } else p

/-- `DELETE /api/personalities/:id` (index.ts lines 165-168). -/
def deletePersonality (uid pid : String) (ps : List Personality) : List Personality :=
  ps.filter fun p => !(p.id == pid && p.userId == uid)

/-- Number of personas with `is_active = 1` belonging to one owner. -/
def activeCount (uid : String) (ps : List Personality) : Nat :=
  ps.countP fun p => p.isActive && p.userId == uid

/-! ## `sendTypingIndicator` of the three adapters.

The wire call is abstracted as an oracle `doFetch url` that either
resolves (`ok`) or rejects (`error`) — the promise returned by `fetch`.
* telegram.ts lines 35-49: `await fetch(url, ...)` with **no** catch.
* whatsapp.ts lines 49-69: `await fetch(url, ...).catch(() => {})`.
* messenger.ts lines 43-58: `await fetch(url, ...)` with **no** catch. -/

def telegramSendTypingIndicator (doFetch : String → Except Unit Unit)
    (botToken chatId : String) : Except Unit Unit :=
  doFetch ("https://api.telegram.org/bot" ++ botToken ++ "/sendChatAction")

def whatsappSendTypingIndicator (doFetch : String → Except Unit Unit)
    (phoneNumber chatId : String) : Except Unit Unit :=
  match doFetch ("https://graph.facebook.com/v18.0/" ++ phoneNumber ++ "/messages") with
  | .ok _ => .ok ()
  | .error _ => .ok ()

def messengerSendTypingIndicator (doFetch : String → Except Unit Unit)
    (accessToken chatId : String) : Except Unit Unit :=
  doFetch ("https://graph.facebook.com/v18.0/me/messages?access_token=" ++ accessToken)

/-! ## Media processing (`server/media.ts` lines 213-245). -/

/-- The base64 alphabet used by `Buffer.toString('base64')`. -/
def base64Table : List Char :=
  "ABCDEFGHIJKLMNOPQRSTUVWXYZabcdefghijklmnopqrstuvwxyz0123456789+/".toList

def b64Char (n : Nat) : Char := base64Table.getD n 'A'

/-- RFC 4648 base64 with padding over a byte sequence, as produced by
Node's `Buffer.toString('base64')`. -/
def base64Encode : List Nat → String
  | [] => ""
  | [a] =>
    let x := a % 256
    String.mk [b64Char (x / 4), b64Char (x % 4 * 16), '=', '=']
  | [a, b] =>
    let x := a % 256
    let y := b % 256
    String.mk [b64Char (x / 4), b64Char (x % 4 * 16 + y / 16), b64Char (y % 16 * 4), '=']
  | a :: b :: c :: rest =>
    let x := a % 256
    let y := b % 256
    let z := c % 256
    String.mk [b64Char (x / 4), b64Char (x % 4 * 16 + y / 16),
               b64Char (y % 16 * 4 + z / 64), b64Char (z % 64)] ++ base64Encode rest

/-- Does `l` start with the pattern `p`? -/
def charsStartWith : List Char → List Char → Bool
  | [], _ => true
  | _ :: _, [] => false
  | p :: ps, c :: cs => p == c && charsStartWith ps cs

/-- Is the pattern a contiguous run of `l`? -/
def charsContain (pat : List Char) : List Char → Bool
  | [] => pat.isEmpty
  | l@(_ :: rest) => charsStartWith pat l || charsContain pat rest

/-- `s.includes(pat)`. -/
def strIncludes (s pat : String) : Bool := charsContain pat.toList s.toList

/-- `processMedia(buffer, mimeType)` (media.ts lines 213-245).  The
ffmpeg pipeline `convertToMp3` + file reads is the oracle `convert`
(its `error` is any thrown/rejected step of the conversion). -/
def processMedia (convert : List Nat → Except Unit (List Nat))
    (buffer : List Nat) (mimeType : String) : String × String :=
  if strIncludes mimeType "ogg" || strIncludes mimeType "webm" then
    match convert buffer with
    | .ok mp3Buffer => (base64Encode mp3Buffer, "audio/mp3")
    | .error _ => (base64Encode buffer, mimeType)
  else
    (base64Encode buffer, mimeType)

/-! ## Randomized delays (`server/platforms/types.ts` lines 238-254).
`Math.random()` is a draw `r` with `0 ≤ r < 1`, modelled over `ℚ`. -/

/-- `getRandomDelay(min, max) = Math.floor(Math.random() * (max - min + 1)) + min`. -/
def getRandomDelay (r : ℚ) (min max : Int) : Int :=
  ⌊r * ((max : ℚ) - (min : ℚ) + 1)⌋ + min

/-- `HumanBehaviorConfig` (types.ts lines 216-222), the fields
`simulateTypingDelay` reads. -/
structure HumanBehaviorConfig where
  typingDelayMin : Int
  typingDelayMax : Int
  readingDelayPerChar : Int
  randomPauseProbability : ℚ

/-- The duration `simulateTypingDelay` (types.ts lines 242-254) sleeps:
`baseDelay + readingDelay + extraPause`, with three `Math.random()`
draws `r1` (base delay), `r2` (pause coin), `r3` (pause length). -/
def simulateTypingDelayDuration (config : HumanBehaviorConfig)
    (messageLength : Int) (r1 r2 r3 : ℚ) : Int :=
  let baseDelay := getRandomDelay r1 config.typingDelayMin config.typingDelayMax
  let readingDelay := min (messageLength * config.readingDelayPerChar) 3000
  let extraPause := if r2 < config.randomPauseProbability then getRandomDelay r3 500 1500 else 0
  baseDelay + readingDelay + extraPause

/-- A Telegram update whose message carries only a `photo` array (two
sizes, Telegram sends smallest-to-largest) and an optional caption. -/
def telegramPhotoPayload (cap : Option String) : JsValue :=
  .obj [("message", .obj ([
    ("message_id", .num 7),
    ("date", .num 1700000000),
    ("chat", .obj [("id", .num 42)]),
    ("from", .obj [("id", .num 99), ("first_name", .str "Ann")]),
    ("photo", .arr [.obj [("file_id", .str "photo-small")],
                    .obj [("file_id", .str "photo-big")]])]
    ++ (match cap with | some c => [("caption", JsValue.str c)] | none => [])))]

/-! ## Helper lemmas -/

theorem length_takeLast (n : Nat) (l : List α) :
    (takeLast n l).length = min l.length n := by
  rw [takeLast, List.length_drop]
  omega

theorem takeLast_is_suffix (n : Nat) (l : List α) : ∃ ws, ws ++ takeLast n l = l :=
  ⟨l.take (l.length - n), List.take_append_drop _ l⟩

theorem tryCandidates_cons_error
    (call : Credential → Except String (String × String)) (c : Credential)
    (l : List Credential) (e : String) (hc : call c = .error e) :
    tryCandidates call (c :: l) =
      ⟨c :: (tryCandidates call l).attempted,
       some ((tryCandidates call l).lastError.getD e),
       (tryCandidates call l).success⟩ := by
  simp only [tryCandidates, hc]

theorem tryCandidates_attempted_extends
    (call : Credential → Except String (String × String)) (l : List Credential) :
    ∃ rest, (tryCandidates call l).attempted ++ rest = l := by
  induction l with
  | nil => exact ⟨[], rfl⟩
  | cons k rest ih =>
    cases h : call k with
    | ok v => exact ⟨rest, by simp [tryCandidates, h]⟩
    | error e =>
      obtain ⟨tail, htail⟩ := ih
      exact ⟨tail, by simp [tryCandidates, h, htail]⟩

theorem tryCandidates_success_spec
    (call : Credential → Except String (String × String)) (l : List Credential)
    (k : Credential) (t raw : String)
    (h : (tryCandidates call l).success = some (k, t, raw)) :
    ∃ l₁ l₂, l = l₁ ++ k :: l₂ ∧
      (tryCandidates call l).attempted = l₁ ++ [k] ∧
      (∀ c ∈ l₁, ∃ e, call c = .error e) ∧ call k = .ok (t, raw) := by
  induction l with
  | nil => simp [tryCandidates] at h
  | cons c rest ih =>
    cases hc : call c with
    | ok v =>
      rcases v with ⟨t0, raw0⟩
      simp [tryCandidates, hc] at h
      obtain ⟨rfl, rfl, rfl⟩ := h
      exact ⟨[], rest, rfl, by simp [tryCandidates, hc], by simp, hc⟩
    | error e =>
      simp only [tryCandidates, hc] at h
      obtain ⟨l₁, l₂, rfl, hatt, hfail, hk⟩ := ih h
      refine ⟨c :: l₁, l₂, rfl, by simp [tryCandidates, hc, hatt], ?_, hk⟩
      intro x hx
      rcases List.mem_cons.mp hx with rfl | hx
      · exact ⟨e, hc⟩
      · exact hfail x hx

theorem tryCandidates_none_spec
    (call : Credential → Except String (String × String)) (l : List Credential)
    (h : (tryCandidates call l).success = none) :
    (tryCandidates call l).attempted = l ∧ ∀ c ∈ l, ∃ e, call c = .error e := by
  induction l with
  | nil => exact ⟨rfl, by simp⟩
  | cons c rest ih =>
    cases hc : call c with
    | ok v => simp [tryCandidates, hc] at h
    | error e =>
      simp only [tryCandidates, hc] at h
      obtain ⟨hatt, hfail⟩ := ih h
      refine ⟨by simp [tryCandidates, hc, hatt], ?_⟩
      intro x hx
      rcases List.mem_cons.mp hx with rfl | hx
      · exact ⟨e, hc⟩
      · exact hfail x hx

theorem tryCandidates_all_error
    (call : Credential → Except String (String × String)) :
    ∀ (l : List Credential) (hne : l ≠ []), (∀ c ∈ l, ∃ e, call c = .error e) →
      ∃ e, call (l.getLast hne) = .error e ∧ tryCandidates call l = ⟨l, some e, none⟩
  | [], hne, _ => absurd rfl hne
  | [c], _, hall => by
    obtain ⟨e, he⟩ := hall c (by simp)
    exact ⟨e, by simpa using he, by simp [tryCandidates, he]⟩
  | c :: c2 :: rest, _, hall => by
    obtain ⟨e0, he0⟩ := hall c (by simp)
    obtain ⟨e, he, heq⟩ := tryCandidates_all_error call (c2 :: rest) (by simp)
      (fun x hx => hall x (by simp [hx]))
    refine ⟨e, ?_, ?_⟩
    · rw [List.getLast_cons]
      exact he
    · rw [tryCandidates_cons_error call c (c2 :: rest) e0 he0, heq]
      simp

theorem mem_selectOrderedCandidates (uid : String) (keys : List Credential)
    (c : Credential) :
    c ∈ selectOrderedCandidates uid keys ↔
      c ∈ keys ∧ c.status = "active" ∧ c.userId = uid := by
  unfold selectOrderedCandidates
  rw [List.mem_insertionSort]
  simp only [List.mem_filter, Bool.and_eq_true, beq_iff_eq]
  tauto

theorem selectOrderedCandidates_ne_nil (uid : String) (keys : List Credential)
    (h : ∃ k ∈ keys, k.status = "active" ∧ k.userId = uid) :
    selectOrderedCandidates uid keys ≠ [] := by
  obtain ⟨k, hk, hs, hu⟩ := h
  intro hnil
  have hmem : k ∈ selectOrderedCandidates uid keys :=
    (mem_selectOrderedCandidates uid keys k).mpr ⟨hk, hs, hu⟩
  rw [hnil] at hmem
  simp at hmem

theorem chatWithGemini_ok_shape
    (provider : Credential → String → List Turn → Except String (String × String))
    (now : Nat) (db : Db) (userId chatId prompt : String) (r : GeminiResult)
    (h : (chatWithGemini provider now db userId chatId prompt).2 = .ok r) :
    ∃ k text raw,
      r = ⟨text, k.id⟩ ∧ text ≠ "" ∧
      (tryCandidates (engineCall provider db userId chatId)
        (selectOrderedCandidates userId db.geminiKeys)).success = some (k, text, raw) ∧
      (chatWithGemini provider now db userId chatId prompt).1.geminiKeys
        = db.geminiKeys.map (fun c =>
            if c.id == k.id then { c with lastUsedAt := some now } else c) ∧
      (chatWithGemini provider now db userId chatId prompt).1.personalities
        = db.personalities ∧
      (chatWithGemini provider now db userId chatId prompt).1.botLogs
        = db.botLogs ++ [⟨logId now, prompt, chatId, text, raw, k.id, userId⟩] ∧
      (chatWithGemini provider now db userId chatId prompt).1.memories
        = (match findMemory db userId chatId with
          | some m => db.memories.map fun r0 =>
              if r0.id == m.id then
                { r0 with context := takeLast 50 (storedHistory db userId chatId
                    ++ [⟨"user", prompt⟩, ⟨"model", text⟩]) }
              else r0
          | none => db.memories ++ [⟨memId now, chatId,
              takeLast 50 (storedHistory db userId chatId
                ++ [⟨"user", prompt⟩, ⟨"model", text⟩]), userId⟩]) := by
  by_cases hk : (selectOrderedCandidates userId db.geminiKeys).isEmpty
  · simp [chatWithGemini, hk] at h
  · rcases hs : (tryCandidates (engineCall provider db userId chatId)
        (selectOrderedCandidates userId db.geminiKeys)).success with _ | ⟨k, text, raw⟩
    · simp [chatWithGemini, hk, hs] at h
    · by_cases ht : text == ""
      · simp [chatWithGemini, hk, hs, ht] at h
      · refine ⟨k, text, raw, ?_, by simpa using ht, rfl, ?_, ?_, ?_, ?_⟩ <;>
          rcases hm : findMemory db userId chatId with _ | m <;>
          simp [chatWithGemini, hk, hs, ht, hm, storedHistory] at h ⊢ <;>
          simp [h]

theorem chatWithGemini_error_no_memory_log
    (provider : Credential → String → List Turn → Except String (String × String))
    (now : Nat) (db : Db) (userId chatId prompt msg : String)
    (h : (chatWithGemini provider now db userId chatId prompt).2 = .error msg) :
    (chatWithGemini provider now db userId chatId prompt).1.memories = db.memories ∧
    (chatWithGemini provider now db userId chatId prompt).1.botLogs = db.botLogs := by
  by_cases hk : (selectOrderedCandidates userId db.geminiKeys).isEmpty
  · simp [chatWithGemini, hk]
  · rcases hs : (tryCandidates (engineCall provider db userId chatId)
        (selectOrderedCandidates userId db.geminiKeys)).success with _ | ⟨k, text, raw⟩
    · simp [chatWithGemini, hk, hs]
    · by_cases ht : text == ""
      · simp [chatWithGemini, hk, hs, ht]
      · simp [chatWithGemini, hk, hs, ht] at h

theorem chatWithGemini_all_fail
    (provider : Credential → String → List Turn → Except String (String × String))
    (now : Nat) (db : Db) (userId chatId prompt : String)
    (hne : selectOrderedCandidates userId db.geminiKeys ≠ [])
    (hall : ∀ k ∈ selectOrderedCandidates userId db.geminiKeys,
      ∃ e, engineCall provider db userId chatId k = .error e) :
    ∃ e, engineCall provider db userId chatId
        ((selectOrderedCandidates userId db.geminiKeys).getLast hne) = .error e ∧
      chatWithGemini provider now db userId chatId prompt =
        (db, .error ("All API keys failed. Last error: " ++ e)) := by
  obtain ⟨e, he, heq⟩ :=
    tryCandidates_all_error (engineCall provider db userId chatId) _ hne hall
  refine ⟨e, he, ?_⟩
  have hk : (selectOrderedCandidates userId db.geminiKeys).isEmpty = false := by
    simpa [List.isEmpty_iff] using hne
  simp [chatWithGemini, hk, heq, lastErrorText]

theorem chatWithGemini_ok_of_provider_ok
    (provider : Credential → String → List Turn → Except String (String × String))
    (now : Nat) (db : Db) (userId chatId prompt : String)
    (hkey : ∃ k ∈ db.geminiKeys, k.status = "active" ∧ k.userId = userId)
    (hp : ∀ k sys ctx, ∃ t raw, provider k sys ctx = .ok (t, raw) ∧ t ≠ "") :
    ∃ r, (chatWithGemini provider now db userId chatId prompt).2 = .ok r := by
  obtain ⟨c, rest, hcands⟩ :=
    List.exists_cons_of_ne_nil (selectOrderedCandidates_ne_nil userId db.geminiKeys hkey)
  obtain ⟨t, raw, hok, htne⟩ :=
    hp c (activeSystemPrompt db userId) (sentContext db userId chatId)
  have hk : (selectOrderedCandidates userId db.geminiKeys).isEmpty = false := by
    simp [hcands]
  have hs : tryCandidates (engineCall provider db userId chatId)
      (selectOrderedCandidates userId db.geminiKeys) =
      ⟨[c], none, some (c, t, raw)⟩ := by
    rw [hcands]
    simp [tryCandidates, engineCall, hok]
  refine ⟨⟨t, c.id⟩, ?_⟩
  simp [chatWithGemini, hk, hs, htne]

theorem chatWithGemini_keys_shape
    (provider : Credential → String → List Turn → Except String (String × String))
    (now : Nat) (db : Db) (userId chatId prompt : String) :
    (chatWithGemini provider now db userId chatId prompt).1.geminiKeys = db.geminiKeys ∨
    ∃ kid, (chatWithGemini provider now db userId chatId prompt).1.geminiKeys
      = db.geminiKeys.map (fun c =>
          if c.id == kid then { c with lastUsedAt := some now } else c) := by
  by_cases hke : (selectOrderedCandidates userId db.geminiKeys).isEmpty
  · left
    simp [chatWithGemini, hke]
  · rcases hsc : (tryCandidates (engineCall provider db userId chatId)
        (selectOrderedCandidates userId db.geminiKeys)).success with _ | ⟨kk, text, raw⟩
    · left
      simp [chatWithGemini, hke, hsc]
    · right
      refine ⟨kk.id, ?_⟩
      by_cases ht : text == "" <;>
        rcases hm : findMemory db userId chatId with _ | m <;>
        simp [chatWithGemini, hke, hsc, ht, hm]

theorem chatWithGemini_preserves_active
    (provider : Credential → String → List Turn → Except String (String × String))
    (now : Nat) (db : Db) (userId chatId prompt u2 : String)
    (hkey : ∃ k ∈ db.geminiKeys, k.status = "active" ∧ k.userId = u2) :
    ∃ k ∈ (chatWithGemini provider now db userId chatId prompt).1.geminiKeys,
      k.status = "active" ∧ k.userId = u2 := by
  obtain ⟨k, hk, hs, hu⟩ := hkey
  rcases chatWithGemini_keys_shape provider now db userId chatId prompt with hsh | ⟨kid, hsh⟩
  · exact ⟨k, by rw [hsh]; exact hk, hs, hu⟩
  · refine ⟨if k.id == kid then { k with lastUsedAt := some now } else k, ?_, ?_, ?_⟩
    · rw [hsh]
      exact List.mem_map_of_mem _ hk
    · by_cases hid : k.id == kid <;> simp [hid, hs]
    · by_cases hid : k.id == kid <;> simp [hid, hu]

theorem storedHistory_after_ok
    (provider : Credential → String → List Turn → Except String (String × String))
    (now : Nat) (db : Db) (userId chatId prompt : String) (r : GeminiResult)
    (h : (chatWithGemini provider now db userId chatId prompt).2 = .ok r) :
    storedHistory (chatWithGemini provider now db userId chatId prompt).1 userId chatId
      = takeLast 50 (storedHistory db userId chatId
          ++ [⟨"user", prompt⟩, ⟨"model", r.response⟩]) := by
  obtain ⟨k, text, raw, hr, hne, hs, hkeys, hpers, hlogs, hmem⟩ :=
    chatWithGemini_ok_shape provider now db userId chatId prompt r h
  subst hr
  rcases hm : findMemory db userId chatId with _ | m <;> simp only [hm] at hmem
  · unfold storedHistory findMemory
    rw [hmem, List.find?_append]
    have hm2 : db.memories.find?
        (fun m => m.userId == userId && m.chatId == chatId) = none := hm
    rw [hm2]
    simp [storedHistory, hm]
  · unfold storedHistory findMemory
    rw [hmem, List.find?_map]
    have hcomp : ((fun m : MemoryRecord => m.userId == userId && m.chatId == chatId) ∘
        (fun r0 : MemoryRecord => if r0.id == m.id then
          { r0 with context := takeLast 50 (storedHistory db userId chatId
              ++ [⟨"user", prompt⟩, ⟨"model", text⟩]) } else r0))
        = (fun m : MemoryRecord => m.userId == userId && m.chatId == chatId) := by
      funext x
      by_cases hx : x.id = m.id <;> simp [hx]
    rw [hcomp]
    have hm2 : db.memories.find?
        (fun m => m.userId == userId && m.chatId == chatId) = some m := hm
    rw [hm2]
    simp [storedHistory, hm]

theorem runChatK_active_and_length
    (provider : Credential → String → List Turn → Except String (String × String))
    (db : Db) (userId chatId : String) (prompts : Nat → String)
    (hp : ∀ k sys ctx, ∃ t raw, provider k sys ctx = .ok (t, raw) ∧ t ≠ "")
    (hkey : ∃ k ∈ db.geminiKeys, k.status = "active" ∧ k.userId = userId)
    (hm0 : findMemory db userId chatId = none) :
    ∀ K, (∃ k ∈ (runChatK provider userId chatId prompts K db).geminiKeys,
            k.status = "active" ∧ k.userId = userId) ∧
      (storedHistory (runChatK provider userId chatId prompts K db) userId chatId).length
        = min (2 * K) 50 := by
  intro K
  induction K with
  | zero =>
    refine ⟨hkey, ?_⟩
    simp [runChatK, storedHistory, hm0]
  | succ j ih =>
    obtain ⟨hkeyj, hlenj⟩ := ih
    obtain ⟨r, hok⟩ := chatWithGemini_ok_of_provider_ok provider j
      (runChatK provider userId chatId prompts j db) userId chatId (prompts j) hkeyj hp
    constructor
    · exact chatWithGemini_preserves_active provider j _ userId chatId (prompts j) userId hkeyj
    · show (storedHistory (chatWithGemini provider j
        (runChatK provider userId chatId prompts j db) userId chatId (prompts j)).1
          userId chatId).length = min (2 * (j + 1)) 50
      rw [storedHistory_after_ok provider j _ userId chatId (prompts j) r hok,
        length_takeLast, List.length_append]
      rw [hlenj]
      simp
      omega

/-! ## Claim theorems -/

/-- C1: for every owner with at least one active credential, the
candidate-selection step returns exactly the owner's credentials with
status `active` — nonempty, sorted ascending by `lastUsedAt` with
never-used (NULL) credentials first — and the retry loop works through
exactly a prefix of that sequence in order: it succeeds at the first
credential whose provider call succeeds (all earlier candidates having
failed), or attempts every candidate when all fail. -/
theorem selectOrderedCandidates_spec
    (keys : List Credential) (uid : String)
    (call : Credential → Except String (String × String))
    (hact : ∃ k ∈ keys, k.status = "active" ∧ k.userId = uid) :
    selectOrderedCandidates uid keys ≠ [] ∧
    (∀ c, c ∈ selectOrderedCandidates uid keys ↔
      c ∈ keys ∧ c.status = "active" ∧ c.userId = uid) ∧
    List.Sorted credRel (selectOrderedCandidates uid keys) ∧
    (∃ rest, (tryCandidates call (selectOrderedCandidates uid keys)).attempted ++ rest
      = selectOrderedCandidates uid keys) ∧
    (∀ k t raw,
      (tryCandidates call (selectOrderedCandidates uid keys)).success = some (k, t, raw) →
      ∃ l₁ l₂, selectOrderedCandidates uid keys = l₁ ++ k :: l₂ ∧
        (tryCandidates call (selectOrderedCandidates uid keys)).attempted = l₁ ++ [k] ∧
        (∀ c ∈ l₁, ∃ e, call c = .error e) ∧ call k = .ok (t, raw)) ∧
    ((tryCandidates call (selectOrderedCandidates uid keys)).success = none →
      (tryCandidates call (selectOrderedCandidates uid keys)).attempted
        = selectOrderedCandidates uid keys ∧
      ∀ c ∈ selectOrderedCandidates uid keys, ∃ e, call c = .error e) := by
  refine ⟨selectOrderedCandidates_ne_nil uid keys hact,
    mem_selectOrderedCandidates uid keys,
    List.sorted_insertionSort credRel _,
    tryCandidates_attempted_extends call _,
    fun k t raw h => tryCandidates_success_spec call _ k t raw h,
    fun h => tryCandidates_none_spec call _ h⟩

/-- Witness for C1 at a concrete one-credential pool. -/
theorem selectOrderedCandidates_spec_witness :
    selectOrderedCandidates "u" [⟨"k1", "sec", "active", none, "u"⟩] ≠ [] ∧
    List.Sorted credRel (selectOrderedCandidates "u" [⟨"k1", "sec", "active", none, "u"⟩]) :=
  let T := selectOrderedCandidates_spec [⟨"k1", "sec", "active", none, "u"⟩] "u"
    (fun _ => .ok ("hi", "raw")) ⟨⟨"k1", "sec", "active", none, "u"⟩, by simp, rfl, rfl⟩
  ⟨T.1, T.2.2.1⟩

/-- C2: after every successful completion call the persisted memory is the
50-turn sliding window over the previous memory plus the new user/model
pair (newest last, oldest dropped first); after `K` consecutive successful
calls starting from an empty memory it holds exactly `min (2 K) 50` turns;
and each provider call sends `history.slice(-20)` — at most the last 20
stored turns — as prior context. -/
theorem conversationMemory_window :
    (∀ provider now db userId chatId prompt (r : GeminiResult),
      (chatWithGemini provider now db userId chatId prompt).2 = .ok r →
      storedHistory (chatWithGemini provider now db userId chatId prompt).1 userId chatId
        = takeLast 50 (storedHistory db userId chatId
            ++ [⟨"user", prompt⟩, ⟨"model", r.response⟩])) ∧
    (∀ provider db userId chatId prompts K,
      (∀ k sys ctx, ∃ t raw, provider k sys ctx = .ok (t, raw) ∧ t ≠ "") →
      (∃ k ∈ db.geminiKeys, k.status = "active" ∧ k.userId = userId) →
      findMemory db userId chatId = none →
      (storedHistory (runChatK provider userId chatId prompts K db) userId chatId).length
        = min (2 * K) 50) ∧
    (∀ db userId chatId,
      sentContext db userId chatId = takeLast 20 (storedHistory db userId chatId) ∧
      (sentContext db userId chatId).length ≤ 20) := by
  refine ⟨storedHistory_after_ok, ?_, ?_⟩
  · intro provider db userId chatId prompts K hp hkey hm0
    exact (runChatK_active_and_length provider db userId chatId prompts hp hkey hm0 K).2
  · intro db userId chatId
    refine ⟨rfl, ?_⟩
    rw [sentContext, length_takeLast]
    omega

/-- Witness for C2: three consecutive successful calls on a fresh chat key
leave six turns in memory. -/
theorem conversationMemory_window_witness :
    (storedHistory (runChatK (fun _ _ _ => .ok ("hi", "raw")) "u" "c" (fun _ => "p") 3
        ⟨[⟨"k1", "sec", "active", none, "u"⟩], [], [], []⟩) "u" "c").length = min (2 * 3) 50 :=
  conversationMemory_window.2.1 (fun _ _ _ => .ok ("hi", "raw"))
    ⟨[⟨"k1", "sec", "active", none, "u"⟩], [], [], []⟩ "u" "c" (fun _ => "p") 3
    (fun k sys ctx => ⟨"hi", "raw", rfl, by decide⟩)
    ⟨⟨"k1", "sec", "active", none, "u"⟩, by simp, rfl, rfl⟩ rfl

/-- C3 (amended): on every failing completion call no memory upsert and no
audit-log insert occur; when every candidate's provider call throws, the
call fails with the `All API keys failed` error carrying the last
candidate's error message and the whole database is unchanged; on success
there is exactly one lastUsedAt update (a single-id map over the key
table), exactly one audit-log insert and exactly one memory upsert
(update of the found record or insert of a fresh one).  The `lastUsedAt`
update can, however, also persist on a failing call — see the
counterexample, where the provider returns an empty reply. -/
theorem chatWithGemini_side_effect_discipline :
    (∀ provider now db userId chatId prompt msg,
      (chatWithGemini provider now db userId chatId prompt).2 = .error msg →
      (chatWithGemini provider now db userId chatId prompt).1.memories = db.memories ∧
      (chatWithGemini provider now db userId chatId prompt).1.botLogs = db.botLogs) ∧
    (∀ provider now db userId chatId prompt
      (hne : selectOrderedCandidates userId db.geminiKeys ≠ []),
      (∀ k ∈ selectOrderedCandidates userId db.geminiKeys,
        ∃ e, engineCall provider db userId chatId k = .error e) →
      ∃ e, engineCall provider db userId chatId
          ((selectOrderedCandidates userId db.geminiKeys).getLast hne) = .error e ∧
        chatWithGemini provider now db userId chatId prompt =
          (db, .error ("All API keys failed. Last error: " ++ e))) ∧
    (∀ provider now db userId chatId prompt (r : GeminiResult),
      (chatWithGemini provider now db userId chatId prompt).2 = .ok r →
      ∃ (k : Credential) (text raw : String),
        r = ⟨text, k.id⟩ ∧
        (chatWithGemini provider now db userId chatId prompt).1.geminiKeys
          = db.geminiKeys.map (fun c =>
              if c.id == k.id then { c with lastUsedAt := some now } else c) ∧
        (chatWithGemini provider now db userId chatId prompt).1.botLogs
          = db.botLogs ++ [⟨logId now, prompt, chatId, text, raw, k.id, userId⟩] ∧
        ((∃ m, findMemory db userId chatId = some m ∧
            (chatWithGemini provider now db userId chatId prompt).1.memories
              = db.memories.map fun r0 => if r0.id == m.id then
                  { r0 with context := takeLast 50 (storedHistory db userId chatId
                      ++ [⟨"user", prompt⟩, ⟨"model", text⟩]) } else r0) ∨
          (findMemory db userId chatId = none ∧
            (chatWithGemini provider now db userId chatId prompt).1.memories
              = db.memories ++ [⟨memId now, chatId,
                  takeLast 50 (storedHistory db userId chatId
                    ++ [⟨"user", prompt⟩, ⟨"model", text⟩]), userId⟩]))) := by
  refine ⟨chatWithGemini_error_no_memory_log, chatWithGemini_all_fail, ?_⟩
  intro provider now db userId chatId prompt r h
  obtain ⟨k, text, raw, hr, hne, hs, hkeys, hpers, hlogs, hmem⟩ :=
    chatWithGemini_ok_shape provider now db userId chatId prompt r h
  refine ⟨k, text, raw, hr, hkeys, hlogs, ?_⟩
  rcases hm : findMemory db userId chatId with _ | m <;> simp only [hm] at hmem
  · right
    exact ⟨rfl, hmem⟩
  · left
    exact ⟨m, rfl, hmem⟩

/-- Counterexample for C3 as stated: a provider call that succeeds with an
**empty** reply makes the call fail with `All API keys failed` (a total
failure in the claim's sense), yet the credential's `lastUsedAt` update
has already been persisted — a side effect on the failure path. -/
theorem chatWithGemini_empty_reply_counterexample :
    (chatWithGemini (fun _ _ _ => .ok ("", "raw")) 9
        ⟨[⟨"k1", "sec", "active", none, "u"⟩], [], [], []⟩ "u" "c" "hi").2
      = .error "All API keys failed. Last error: null" ∧
    (chatWithGemini (fun _ _ _ => .ok ("", "raw")) 9
        ⟨[⟨"k1", "sec", "active", none, "u"⟩], [], [], []⟩ "u" "c" "hi").1.geminiKeys
      = [⟨"k1", "sec", "active", some 9, "u"⟩] := by
  constructor <;> rfl

/-- Witness for C3 (amended) at a run where the only credential throws. -/
theorem chatWithGemini_side_effect_discipline_witness :
    ∃ e, engineCall (fun _ _ _ => .error "429 rate limited")
        ⟨[⟨"k1", "sec", "active", none, "u"⟩], [], [], []⟩ "u" "c"
        ((selectOrderedCandidates "u" [⟨"k1", "sec", "active", none, "u"⟩]).getLast
          (by decide)) = .error e ∧
      chatWithGemini (fun _ _ _ => .error "429 rate limited") 9
          ⟨[⟨"k1", "sec", "active", none, "u"⟩], [], [], []⟩ "u" "c" "hi" =
        (⟨[⟨"k1", "sec", "active", none, "u"⟩], [], [], []⟩,
          .error ("All API keys failed. Last error: " ++ e)) :=
  chatWithGemini_side_effect_discipline.2.1 (fun _ _ _ => .error "429 rate limited") 9
    ⟨[⟨"k1", "sec", "active", none, "u"⟩], [], [], []⟩ "u" "c" "hi" (by decide)
    (fun k _ => ⟨"429 rate limited", rfl⟩)

/-- C4 (amended): the WhatsApp and Messenger `parseWebhook` never throw —
their bodies are wrapped in try/catch, so every payload yields a plain
result — and they return null on payloads that carry no user message
(e.g. a WhatsApp status/delivery update, a Messenger delivery entry).
The Telegram `parseWebhook` returns null when the payload has neither
`message` nor `edited_message`, but it has **no** internal catch — see the
counterexample, where a malformed message makes it throw. -/
theorem parseWebhook_exception_discipline :
    (∀ payload, ∃ r, whatsappParseWebhook payload = .ok r) ∧
    (∀ payload, ∃ r, messengerParseWebhook payload = .ok r) ∧
    whatsappParseWebhook (.obj [("entry", .arr [.obj [("changes", .arr [.obj [("value",
      .obj [("statuses", .arr [.obj [("status", .str "delivered")]])])]])]])]) = .ok none ∧
    messengerParseWebhook (.obj [("object", .str "page"), ("entry", .arr [.obj [("messaging",
      .arr [.obj [("sender", .obj [("id", .str "s1")]),
                  ("delivery", .obj [])]])]])]) = .ok none ∧
    (∀ fields, JsValue.truthy (JsValue.lookup fields "message") = false →
      JsValue.truthy (JsValue.lookup fields "edited_message") = false →
      telegramParseWebhook (.obj fields) = .ok none) := by
  refine ⟨?_, ?_, rfl, rfl, ?_⟩
  · intro payload
    unfold whatsappParseWebhook
    cases whatsappParseBody payload with
    | ok r => exact ⟨r, rfl⟩
    | error e => exact ⟨none, rfl⟩
  · intro payload
    unfold messengerParseWebhook
    cases messengerParseBody payload with
    | ok r => exact ⟨r, rfl⟩
    | error e => exact ⟨none, rfl⟩
  · intro fields h1 h2
    simp [telegramParseWebhook, JsValue.get, JsValue.orElse, h1, h2, Bind.bind, Except.bind,
      pure, Except.pure]

/-- Counterexample for C4 as stated: the Telegram adapter throws (a
`TypeError` reading `message.chat.id`) on a payload whose `message` is an
object without `chat`, instead of returning null. -/
theorem telegramParseWebhook_throws_counterexample :
    telegramParseWebhook (.obj [("message", .obj [])]) = .error () := rfl

/-- Witness for C4 (amended) on a Telegram update with neither `message`
nor `edited_message`. -/
theorem parseWebhook_exception_discipline_witness :
    telegramParseWebhook (.obj [("callback_query", .obj [])]) = .ok none :=
  parseWebhook_exception_discipline.2.2.2.2 [("callback_query", .obj [])] rfl rfl

/-- C8: on a Telegram payload whose message carries only a `photo` array,
`parseWebhook` returns a canonical message with mediaType `image`,
content equal to the caption or the empty string, and the largest
photo's `file_id` as media url; on a payload with neither `message` nor
`edited_message` it returns null. -/
theorem telegramParseWebhook_photo_spec :
    (∀ cap : Option String, ∃ m : CanonMsg,
      telegramParseWebhook (telegramPhotoPayload cap) = .ok (some m) ∧
      m.mediaType = some "image" ∧
      m.content = .str (cap.getD "") ∧
      m.mediaUrl = .str "photo-big" ∧
      m.chatId = .str "42") ∧
    (∀ fields, JsValue.truthy (JsValue.lookup fields "message") = false →
      JsValue.truthy (JsValue.lookup fields "edited_message") = false →
      telegramParseWebhook (.obj fields) = .ok none) := by
  constructor
  · intro cap
    rcases cap with _ | c
    · exact ⟨_, rfl, rfl, rfl, rfl, rfl⟩
    · by_cases hc : c = ""
      · subst hc
        exact ⟨_, rfl, rfl, rfl, rfl, rfl⟩
      · refine ⟨_, rfl, rfl, ?_, rfl, rfl⟩
        show JsValue.orElse (.str c) (.str "") = .str c
        simp [JsValue.orElse, JsValue.truthy, hc]
  · intro fields h1 h2
    simp [telegramParseWebhook, JsValue.get, JsValue.orElse, h1, h2, Bind.bind, Except.bind,
      pure, Except.pure]

/-- Witness for C8 on an update carrying only an inline-query. -/
theorem telegramParseWebhook_photo_spec_witness :
    telegramParseWebhook (.obj [("inline_query", .obj [])]) = .ok none :=
  telegramParseWebhook_photo_spec.2 [("inline_query", .obj [])] rfl rfl

/-- C5: the WhatsApp verifier accepts exactly `sha256=` followed by the
hex HMAC-SHA-256 of the payload under the secret; the Messenger verifier
computes the same HMAC-SHA-256 digest but accepts it under a `sha1=`
label (the mislabelled scheme the spec flags); and neither adapter's
`validateWebhook` reads its signature argument at all. -/
theorem signatureVerification_spec :
    (∀ (hmacSha256Hex : String → String → String) (payload sig secret : String),
      (verifyWhatsAppSignature hmacSha256Hex payload sig secret = true ↔
        sig = "sha256=" ++ hmacSha256Hex secret payload) ∧
      (verifyMessengerSignature hmacSha256Hex payload sig secret = true ↔
        sig = "sha1=" ++ hmacSha256Hex secret payload)) ∧
    (∀ payload s1 s2, whatsappValidateWebhook payload s1 = whatsappValidateWebhook payload s2) ∧
    (∀ payload s1 s2, messengerValidateWebhook payload s1 = messengerValidateWebhook payload s2) := by
  refine ⟨?_, fun _ _ _ => rfl, fun _ _ _ => rfl⟩
  intro hmacSha256Hex payload sig secret
  constructor
  · rw [verifyWhatsAppSignature, beq_iff_eq]
    exact eq_comm
  · rw [verifyMessengerSignature, beq_iff_eq]
    exact eq_comm

/-- C6: activating persona `pid` for owner `uid` (the deactivate-all /
activate-one statement pair) leaves exactly one active persona — the
activated one — for that owner, leaves other owners' active counts
unchanged, and the at-most-one-active-per-owner invariant is preserved by
persona creation (inserted inactive by schema default), activation and
deletion. -/
theorem personaActivation_invariant
    (uid pid : String) (ps : List Personality)
    (hB : ps.countP (fun p => p.id == pid && p.userId == uid) = 1)
    (hA : ∃ a ∈ ps, a.userId = uid ∧ a.isActive = true) :
    activeCount uid (activatePersonality uid pid ps) = 1 ∧
    (∀ p ∈ activatePersonality uid pid ps,
      p.isActive = true → p.userId = uid → p.id = pid) ∧
    (∀ u2, activeCount u2 ps ≤ 1 → activeCount u2 (activatePersonality uid pid ps) ≤ 1) ∧
    (∀ u2 npid nm nsp, activeCount u2 (createPersonality uid npid nm nsp ps)
      = activeCount u2 ps) ∧
    (∀ u2 dpid, activeCount u2 (deletePersonality uid dpid ps) ≤ activeCount u2 ps) := by
  have hself : activeCount uid (activatePersonality uid pid ps)
      = ps.countP (fun p => p.id == pid && p.userId == uid) := by
    unfold activeCount activatePersonality
    rw [List.countP_map, List.countP_map]
    apply List.countP_congr
    intro p hp
    by_cases h1 : p.userId = uid <;> by_cases h2 : p.id = pid <;>
      simp [Function.comp, h1, h2]
  have hother : ∀ u2, u2 ≠ uid →
      activeCount u2 (activatePersonality uid pid ps) = activeCount u2 ps := by
    intro u2 hne
    unfold activeCount activatePersonality
    rw [List.countP_map, List.countP_map]
    apply List.countP_congr
    intro p hp
    by_cases h1 : p.userId = uid <;> by_cases h2 : p.id = pid <;>
      simp [Function.comp, h1, h2, Ne.symm hne]
  refine ⟨hself.trans hB, ?_, ?_, ?_, ?_⟩
  · intro p hp hact huid
    simp only [activatePersonality, List.mem_map] at hp
    obtain ⟨p0, ⟨a, ha, rfl⟩, rfl⟩ := hp
    by_cases h1 : a.userId = uid <;> by_cases h2 : a.id = pid
    · simp [h1, h2]
    · simp [h1, h2] at hact
    · simp [h1, h2] at huid
    · simp [h1, h2] at huid
  · intro u2 hle
    by_cases hu : u2 = uid
    · subst hu
      rw [hself, hB]
    · rw [hother u2 hu]
      exact hle
  · intro u2 npid nm nsp
    unfold activeCount createPersonality
    rw [List.countP_append]
    simp
  · intro u2 dpid
    unfold activeCount deletePersonality
    rw [List.countP_filter]
    apply List.countP_mono_left
    intro a ha h
    simp_all

/-- Witness for C6: with owner `u` holding active `a` and inactive `b`,
activating `b` leaves exactly one active persona. -/
theorem personaActivation_invariant_witness :
    activeCount "u" (activatePersonality "u" "b"
      [⟨"a", "A", "sa", true, "u"⟩, ⟨"b", "B", "sb", false, "u"⟩]) = 1 :=
  (personaActivation_invariant "u" "b"
    [⟨"a", "A", "sa", true, "u"⟩, ⟨"b", "B", "sb", false, "u"⟩]
    (by decide) ⟨⟨"a", "A", "sa", true, "u"⟩, by simp, rfl, rfl⟩).1

/-- C7 (amended): only the WhatsApp adapter's `sendTypingIndicator`
swallows wire-call failures (its fetch carries `.catch(() => {})`); the
Telegram and Messenger adapters return the underlying fetch outcome
unchanged, so a rejected fetch surfaces to the caller. -/
theorem sendTypingIndicator_error_propagation :
    (∀ doFetch phoneNumber chatId,
      whatsappSendTypingIndicator doFetch phoneNumber chatId = .ok ()) ∧
    (∀ doFetch botToken chatId,
      telegramSendTypingIndicator doFetch botToken chatId
        = doFetch ("https://api.telegram.org/bot" ++ botToken ++ "/sendChatAction")) ∧
    (∀ doFetch accessToken chatId,
      messengerSendTypingIndicator doFetch accessToken chatId
        = doFetch ("https://graph.facebook.com/v18.0/me/messages?access_token="
            ++ accessToken)) := by
  refine ⟨?_, fun _ _ _ => rfl, fun _ _ _ => rfl⟩
  intro doFetch phoneNumber chatId
  unfold whatsappSendTypingIndicator
  cases doFetch ("https://graph.facebook.com/v18.0/" ++ phoneNumber ++ "/messages") <;> rfl

/-- Counterexample for C7 as stated: a rejecting wire call makes the
Telegram and Messenger `sendTypingIndicator` fail — the failure is not
swallowed inside those adapters. -/
theorem sendTypingIndicator_counterexample :
    telegramSendTypingIndicator (fun _ => .error ()) "token" "chat" = .error () ∧
    messengerSendTypingIndicator (fun _ => .error ()) "atoken" "chat" = .error () :=
  ⟨rfl, rfl⟩

/-- C9: `processMedia` converts only when the mime type contains `ogg` or
`webm`; for any other mime type it returns the buffer's base64 encoding
with the mime type unchanged, without consulting the converter at all;
and when conversion fails it falls back to the original bytes, base64
encoded, with the original mime type. -/
theorem processMedia_conversion_gating
    (convert convert2 : List Nat → Except Unit (List Nat))
    (buffer : List Nat) (mimeType : String) :
    (strIncludes mimeType "ogg" = false → strIncludes mimeType "webm" = false →
      processMedia convert buffer mimeType = (base64Encode buffer, mimeType) ∧
      processMedia convert buffer mimeType = processMedia convert2 buffer mimeType) ∧
    (convert buffer = .error () →
      processMedia convert buffer mimeType = (base64Encode buffer, mimeType)) := by
  constructor
  · intro h1 h2
    constructor <;> simp [processMedia, h1, h2]
  · intro h
    by_cases hogg : (strIncludes mimeType "ogg" || strIncludes mimeType "webm") = true <;>
      simp [processMedia, hogg, h]

/-- Witness for C9 at a png (no conversion) and a failing ogg conversion. -/
theorem processMedia_conversion_gating_witness :
    processMedia (fun _ => .error ()) [1, 2, 3] "image/png"
      = (base64Encode [1, 2, 3], "image/png") ∧
    processMedia (fun _ => .error ()) [1, 2, 3] "audio/ogg"
      = (base64Encode [1, 2, 3], "audio/ogg") :=
  ⟨((processMedia_conversion_gating (fun _ => .error ()) (fun _ => .ok []) [1, 2, 3]
      "image/png").1 (by decide) (by decide)).1,
   (processMedia_conversion_gating (fun _ => .error ()) (fun _ => .ok []) [1, 2, 3]
      "audio/ogg").2 rfl⟩

theorem getRandomDelay_mem (lo hi : Int) (r : ℚ)
    (hlh : lo ≤ hi) (hr0 : 0 ≤ r) (hr1 : r < 1) :
    lo ≤ getRandomDelay r lo hi ∧ getRandomDelay r lo hi ≤ hi := by
  have hn0 : (0 : ℚ) < (hi : ℚ) - (lo : ℚ) + 1 := by
    have : (lo : ℚ) ≤ (hi : ℚ) := by exact_mod_cast hlh
    linarith
  constructor
  · have hfl : (0 : Int) ≤ ⌊r * ((hi : ℚ) - (lo : ℚ) + 1)⌋ := by
      apply Int.le_floor.mpr
      push_cast
      exact mul_nonneg hr0 (le_of_lt hn0)
    unfold getRandomDelay
    omega
  · have hfl : ⌊r * ((hi : ℚ) - (lo : ℚ) + 1)⌋ < hi - lo + 1 := by
      apply Int.floor_lt.mpr
      have : r * ((hi : ℚ) - (lo : ℚ) + 1) < 1 * ((hi : ℚ) - (lo : ℚ) + 1) :=
        mul_lt_mul_of_pos_right hr1 hn0
      push_cast
      linarith
    unfold getRandomDelay
    omega

/-- C10: for `lo ≤ hi` and a uniform draw `0 ≤ r < 1`,
`getRandomDelay r lo hi` lands in `[lo, hi]` with both endpoints
reachable, and consequently the randomized base delay inside
`simulateTypingDelay` keeps the total duration between
`typingDelayMin + readingDelay` and `typingDelayMax + readingDelay +
1500`. -/
theorem getRandomDelay_bounds
    (lo hi : Int) (r : ℚ) (config : HumanBehaviorConfig) (len : Int) (rb rc re : ℚ)
    (hlh : lo ≤ hi) (hr0 : 0 ≤ r) (hr1 : r < 1) :
    (lo ≤ getRandomDelay r lo hi ∧ getRandomDelay r lo hi ≤ hi) ∧
    getRandomDelay 0 lo hi = lo ∧
    (∃ q : ℚ, 0 ≤ q ∧ q < 1 ∧ getRandomDelay q lo hi = hi) ∧
    (config.typingDelayMin ≤ config.typingDelayMax →
      0 ≤ rb → rb < 1 → 0 ≤ re → re < 1 →
      config.typingDelayMin + min (len * config.readingDelayPerChar) 3000
          ≤ simulateTypingDelayDuration config len rb rc re ∧
      simulateTypingDelayDuration config len rb rc re
          ≤ config.typingDelayMax + min (len * config.readingDelayPerChar) 3000 + 1500) := by
  refine ⟨getRandomDelay_mem lo hi r hlh hr0 hr1, ?_, ?_, ?_⟩
  · unfold getRandomDelay
    simp
  · have hcast : (lo : ℚ) ≤ (hi : ℚ) := by exact_mod_cast hlh
    refine ⟨((hi - lo : Int) : ℚ) / ((hi - lo + 1 : Int) : ℚ), ?_, ?_, ?_⟩
    · apply div_nonneg <;> push_cast <;> linarith
    · rw [div_lt_one (by push_cast; linarith)]
      push_cast
      linarith
    · unfold getRandomDelay
      have hne : ((hi - lo + 1 : Int) : ℚ) ≠ 0 := by
        push_cast
        intro hcon
        linarith
      have harg : ((hi - lo : Int) : ℚ) / ((hi - lo + 1 : Int) : ℚ)
          * ((hi : ℚ) - (lo : ℚ) + 1) = ((hi - lo : Int) : ℚ) := by
        rw [show ((hi : ℚ) - (lo : ℚ) + 1) = ((hi - lo + 1 : Int) : ℚ) by push_cast; ring]
        exact div_mul_cancel₀ _ hne
      rw [harg, Int.floor_intCast]
      omega
  · intro hcfg hrb0 hrb1 hre0 hre1
    obtain ⟨hb1, hb2⟩ := getRandomDelay_mem config.typingDelayMin config.typingDelayMax rb
      hcfg hrb0 hrb1
    have hex : (0 : Int) ≤ (if rc < config.randomPauseProbability then
        getRandomDelay re 500 1500 else 0) ∧
        (if rc < config.randomPauseProbability then
          getRandomDelay re 500 1500 else 0) ≤ 1500 := by
      by_cases hc : rc < config.randomPauseProbability
      · obtain ⟨he1, he2⟩ := getRandomDelay_mem 500 1500 re (by norm_num) hre0 hre1
        simp only [hc, if_true]
        omega
      · simp [hc]
    obtain ⟨hex1, hex2⟩ := hex
    have htot : simulateTypingDelayDuration config len rb rc re
        = getRandomDelay rb config.typingDelayMin config.typingDelayMax
          + min (len * config.readingDelayPerChar) 3000
          + (if rc < config.randomPauseProbability then
              getRandomDelay re 500 1500 else 0) := rfl
    refine ⟨?_, ?_⟩ <;> rw [htot] <;> omega

/-- Witness for C10 with `lo = 2`, `hi = 5`, `r = 1/2`. -/
theorem getRandomDelay_bounds_witness :
    (2 ≤ getRandomDelay (1/2) 2 5 ∧ getRandomDelay (1/2) 2 5 ≤ 5) ∧
    getRandomDelay 0 2 5 = 2 :=
  let T := getRandomDelay_bounds 2 5 (1/2) ⟨500, 2000, 20, 15/100⟩ 40 0 (1/2) 0
    (by norm_num) (by norm_num) (by norm_num)
  ⟨T.1, T.2.1⟩

end GeminiBot
